import Mathlib

/-!
# Verification of `num2english` (`src/lib.rs`)

Shallow embedding of the `num2english` crate: a library converting a number
(given by its canonical base-10 decimal string) into its English name,
e.g. `60.212` becomes "sixty and two hundred twelve thousandths".

Rust `panic!` and out-of-bounds indexing are modelled by `Option`:
a function returns `none` exactly when the Rust original would abort.

The crate's `scales` module (the word tables `ONE_TO_NINETEEN`, `TENS`,
`MAGNITUDES`, `DECIMALS`) is declared in `lib.rs` (`mod scales;`) but its
source file is not in the repository snapshot; the tables below are modelled
from the spec's descriptions of them, with entries pinned by the reference
tests in `lib.rs`.
-/

/-- Modelled from the spec: the missing `scales` module's ones table, the
"ordered sequence of words for 1–19"; entries pinned by the tests
(`255` ↦ "two hundred fifty-five", etc.). -/
def ONE_TO_NINETEEN : List String :=
  ["one", "two", "three", "four", "five", "six", "seven", "eight", "nine",
   "ten", "eleven", "twelve", "thirteen", "fourteen", "fifteen", "sixteen",
   "seventeen", "eighteen", "nineteen"]

/-- Modelled from the spec: the missing `scales` module's tens table.
`convert_hundreds_to_english` indexes it at `number / 10 - 1` for
`20 ≤ number ≤ 99`, and the test `60 ↦ "sixty"` forces index 5 = "sixty",
so the table starts at "ten". -/
def TENS : List String :=
  ["ten", "twenty", "thirty", "forty", "fifty", "sixty", "seventy",
   "eighty", "ninety"]

/-- Modelled from the spec: the missing `scales` module's large-magnitude
table ("thousand", "million", ...). The integer namer reads index
`magnitude - 1`, and the tests force index 0 = "thousand" (`123456`),
index 1 = "million" (`1000000`), index 2 = "billion" (`1000000000`).
The real table extends past "centillion"; this model keeps the entries
needed by the claims under verification. -/
def MAGNITUDES : List String :=
  ["thousand", "million", "billion", "trillion", "quadrillion",
   "quintillion", "sextillion", "septillion", "octillion", "nonillion",
   "decillion"]

/-- Modelled from the spec: the missing `scales` module's fractional
place-word table, "indexed by decimal-place count" (index 0 = "tenth",
1 = "hundredth", 2 = "thousandth", ...); the tests force indices 0, 1, 2
and 5 ("tenth", "hundredth", "thousandth", "millionth"). -/
def DECIMALS : List String :=
  ["tenth", "hundredth", "thousandth", "ten-thousandth",
   "hundred-thousandth", "millionth", "ten-millionth",
   "hundred-millionth", "billionth"]

/-- `SplitNumber` from `lib.rs`: a number split into integer part,
decimal (fractional) part and the count of decimal places. `BigInt`
is embedded as `Int`. -/
structure SplitNumber where
  integer : Option Int
  decimal : Option Int
  decimal_places : Nat
deriving Repr, DecidableEq

/-- One step of decimal digit accumulation, `none` on a non-digit. -/
def accum_digit (acc : Option Nat) (c : Char) : Option Nat :=
  acc.bind (fun a => if c.isDigit then some (a * 10 + (c.toNat - 48)) else none)

/-- Parse a nonempty all-digit character list as a natural number
(most significant digit first); `none` on an empty list or a non-digit. -/
def parse_digits (l : List Char) : Option Nat :=
  match l with
  | [] => none
  | _ => l.foldl accum_digit (some 0)

/-- `BigInt::parse_bytes(bytes, 10)` from the `num-bigint` crate: an
optional leading sign followed by at least one decimal digit; `none`
on any other input. -/
def parse_bytes_radix10 (s : String) : Option Int :=
  match s.data with
  | '-' :: rest => (parse_digits rest).map (fun n => -(n : Int))
  | '+' :: rest => (parse_digits rest).map (fun n => (n : Int))
  | l => (parse_digits l).map (fun n => (n : Int))

/-- `parse_big_int` from `lib.rs`: parse, defaulting to 0 on failure
(`unwrap_or_else`), and store a zero value as `None`. -/
def parse_big_int (n : String) : Option Int :=
  let bigint := (parse_bytes_radix10 n).getD 0
  if bigint = 0 then none else some bigint

/-- Rust's `str::split` with a `char` pattern, on the character list:
cut at every occurrence of the separator; the result is never empty
(the empty string splits to `[[]]`). -/
def split_chars (sep : Char) : List Char → List (List Char)
  | [] => [[]]
  | c :: rest =>
    let r := split_chars sep rest
    if c = sep then [] :: r
    else
      match r with
      | [] => [[c]]
      | h :: t => (c :: h) :: t

/-- Rust's `string.split(sep).collect::<Vec<&str>>()`. -/
def rust_split (sep : Char) (s : String) : List String :=
  (split_chars sep s.data).map (fun l => ⟨l⟩)

/-- Rust's `string.contains(c)` for a `char` pattern. -/
def rust_contains (s : String) (c : Char) : Bool :=
  s.data.contains c

/-- `split_number` from `lib.rs`: split on `'.'`, parse the two parts,
record the literal length of the fractional substring.
(Rust's `split` always yields at least one piece, as does `rust_split`,
so the `split[0]` access cannot fail; `getD` keeps the model total.) -/
def split_number (string : String) : SplitNumber :=
  let split := rust_split '.' string
  let integer := parse_big_int (split.getD 0 "")
  let decimal := if split.length > 1 then parse_big_int (split.getD 1 "") else none
  let decimal_places := if split.length > 1 then (split.getD 1 "").length else 0
  ⟨integer, decimal, decimal_places⟩

/-- The `number.to_string().parse::<u64>().unwrap()` step in
`convert_hundreds_to_english`: succeeds exactly when the `BigInt` is
non-negative and fits in a `u64`. -/
def bigint_to_u64 (n : Int) : Option Nat :=
  if 0 ≤ n ∧ n ≤ (2 ^ 64 - 1 : Int) then some n.toNat else none

/-- `convert_hundreds_to_english` from `lib.rs`: name an integer in
`[0, 999]`. Table indexing is `List.get?`; an out-of-bounds access
(a Rust panic) yields `none`. -/
def convert_hundreds_to_english (number : Int) : Option String :=
  match bigint_to_u64 number with
  | none => none
  | some n =>
    let hundreds := n / 100
    let m := n % 100
    let part1 : Option String :=
      if hundreds > 0 then
        (ONE_TO_NINETEEN.get? (hundreds - 1)).map
          (fun w => w ++ " hundred" ++ (if m > 0 then " " else ""))
      else some ""
    match part1 with
    | none => none
    | some r1 =>
      if m > 0 then
        if m < 20 then
          (ONE_TO_NINETEEN.get? (m - 1)).map (fun w => r1 ++ w)
        else
          let tens := m / 10
          let ones := m % 10
          match TENS.get? (tens - 1) with
          | none => none
          | some tw =>
            if ones > 0 then
              (ONE_TO_NINETEEN.get? (ones - 1)).map (fun ow => r1 ++ tw ++ "-" ++ ow)
            else some (r1 ++ tw)
      else some r1

/-- The `while number > 0` loop of `convert_integer_to_english`, with an
explicit fuel argument so the recursion is structural. The fuel only pays
for the `number := number / 1000` updates, so any fuel at least the initial
`number` is enough for `number ≥ 1` and the `fuel = 0` branch with a
nonzero number is unreachable from `convert_integer_to_english`. -/
def integer_loop : Nat → Nat → Nat → String → Option String
  | _, 0, _, result => some result
  | 0, _ + 1, _, _ => none
  | fuel + 1, number, magnitude, result =>
    let remainder := number % 1000
    let next : Option String :=
      if remainder > 0 then
        (convert_hundreds_to_english (remainder : Int)).bind (fun rs =>
          (if magnitude > 0 then
             (MAGNITUDES.get? (magnitude - 1)).map (fun mw => rs ++ " " ++ mw)
           else some rs).map
            (fun rs => rs ++ (if result ≠ "" then " " else "") ++ result))
      else some result
    next.bind (fun result' => integer_loop fuel (number / 1000) (magnitude + 1) result')

/-- `convert_integer_to_english` from `lib.rs`. The Rust function takes a
`BigInt`; a non-positive argument skips the loop and yields `""`, which
`Int.toNat` reproduces. For a positive argument the loop runs on exact
non-negative values, so `Nat` arithmetic coincides with `BigInt`
(`(number - remainder) / 1000` is the floor division `number / 1000`). -/
def convert_integer_to_english (number : Int) : Option String :=
  integer_loop number.toNat number.toNat 0 ""

/-- The `while number > 0 && magnitude < 3` loop of
`convert_decimal_to_english`; `remaining` counts the iterations still
allowed by `magnitude < 3`, so it starts at 3 and the recursion is
structural. Unlike `integer_loop`, the magnitude word is read at table
index `magnitude`, exactly as in the source (`MAGNITUDES[magnitude]`). -/
def decimal_loop : Nat → Nat → Nat → String → Option String
  | _, 0, _, result => some result
  | 0, _ + 1, _, result => some result
  | remaining + 1, number, magnitude, result =>
    let remainder := number % 1000
    let next : Option String :=
      if remainder > 0 then
        (convert_hundreds_to_english (remainder : Int)).bind (fun rs =>
          (if magnitude > 0 then
             (MAGNITUDES.get? magnitude).map (fun mw => rs ++ " " ++ mw)
           else some rs).map
            (fun rs => rs ++ (if result ≠ "" then " " else "") ++ result))
      else some result
    next.bind (fun result' => decimal_loop remaining (number / 1000) (magnitude + 1) result')

/-- `convert_decimal_to_english` from `lib.rs`. The suffix lookup
`DECIMALS[decimal_places - 1]` happens before the loop; with
`decimal_places = 0` the Rust `usize` subtraction wraps around and the
index is out of bounds either way, a panic, modelled by `none`. -/
def convert_decimal_to_english (number : Int) (decimal_places : Nat) : Option String :=
  if decimal_places = 0 then none
  else
    (DECIMALS.get? (decimal_places - 1)).bind (fun base =>
      let suffix := if number > 1 then base ++ "s" else base
      (decimal_loop 3 number.toNat 0 "").map (fun result => result ++ " " ++ suffix))

/-- `convert_number_to_english` from `lib.rs`: split, name the signed
integer part (with a "negative " marker), name the fractional part
(joined by " and " when an integer part was present), and fall back to
"zero" when nothing was produced. -/
def convert_number_to_english (number : String) : Option String :=
  let sp := split_number number
  let has_integer := sp.integer.isSome
  let int_part : Option String :=
    match sp.integer with
    | none => some ""
    | some before_decimal =>
      if before_decimal < 0 then
        (convert_integer_to_english (-before_decimal)).map (fun t => "negative " ++ t)
      else
        convert_integer_to_english before_decimal
  int_part.bind (fun r1 =>
    let dec_part : Option String :=
      match sp.decimal with
      | none => some ""
      | some after_decimal =>
        (convert_decimal_to_english after_decimal sp.decimal_places).map
          (fun t => (if has_integer then " and " else "") ++ t)
    dec_part.map (fun r2 =>
      let result := r1 ++ r2
      if result = "" then "zero" else result))

/-- `to_english` from `lib.rs` (the `NumberToEnglish` impl), taking the
input's canonical decimal string (`self.to_string()`): panic — `none` —
when the string contains the exponent marker `'e'`. -/
def to_english (s : String) : Option String :=
  if rust_contains s 'e' then none
  else convert_number_to_english s

/-- The Chunk Namer as §4.3 of the spec states it: `hundreds = n / 100`,
`remainder = n % 100`; "{word(hundreds)} hundred" plus a space when the
remainder follows; the 1–19 word for a remainder below 20, otherwise the
tens-word with an optional hyphenated ones-word. -/
def chunk_namer_spec (n : Nat) : String :=
  let hundreds := n / 100
  let remainder := n % 100
  (if hundreds > 0 then
     ONE_TO_NINETEEN.getD (hundreds - 1) "" ++ " hundred" ++
       (if remainder > 0 then " " else "")
   else "")
  ++ (if remainder > 0 then
       if remainder < 20 then ONE_TO_NINETEEN.getD (remainder - 1) ""
       else
         TENS.getD (remainder / 10 - 1) "" ++
           (if remainder % 10 > 0 then
              "-" ++ ONE_TO_NINETEEN.getD (remainder % 10 - 1) ""
            else "")
     else "")

/-- Joining of an accumulated phrase `a` (more significant, rendered
first) with a phrase `b`: a single separating space when both are
nonempty. `join_phrases a b` for `a ≠ ""` is literally the
`remainder_string.push(' '); remainder_string.push_str(&result)` step of
the source, and for `a = ""` it is the step with the space skipped. -/
def join_phrases (a b : String) : String :=
  if a = "" then b else a ++ (if b ≠ "" then " " else "") ++ b

/-- The phrase the spec's Integer Namer (§4.4) produces for one base-1000
chunk `c` at magnitude index `m`: the chunk's name, then for `m > 0` the
magnitude word from the scale table at index `m - 1`. -/
def chunk_phrase (m c : Nat) : String :=
  chunk_namer_spec c ++ (if m > 0 then " " ++ MAGNITUDES.getD (m - 1) "" else "")

/-- The spec's Integer Namer (§4.4), rendering `n` whose chunks start at
magnitude index `m`: chunks least-significant first, zero chunks skipped,
the most significant chunk rendered first. Fueled like `integer_loop`. -/
def integer_name_spec_fueled : Nat → Nat → Nat → String
  | _, 0, _ => ""
  | 0, _ + 1, _ => ""
  | fuel + 1, n, m =>
    let c := n % 1000
    let high := integer_name_spec_fueled fuel (n / 1000) (m + 1)
    if c > 0 then join_phrases high (chunk_phrase m c) else high

/-- The spec's Integer Namer on a non-negative integer. -/
def integer_name_spec (n : Nat) : String := integer_name_spec_fueled n n 0

/-- Lookup in a word table at a possibly negative index, reading the
claim's "the literal word stored at index n−1" literally: no word is
stored at a negative index. -/
def table_get_int (l : List String) (i : Int) : Option String :=
  if i < 0 then none else l.get? i.toNat

set_option maxRecDepth 100000 in
/-- On the whole domain `[0, 999]` the code's chunk namer succeeds and
agrees with the spec's description, and the spec's phrase is empty exactly
at 0. Checked by exhaustive evaluation. -/
lemma hundreds_spec_all : ∀ n : Nat, n < 1000 →
    convert_hundreds_to_english (n : Int) = some (chunk_namer_spec n) ∧
    (chunk_namer_spec n = "" ↔ n = 0) := by decide

lemma string_append_assoc (a b c : String) : (a ++ b) ++ c = a ++ (b ++ c) := by
  obtain ⟨la⟩ := a; obtain ⟨lb⟩ := b; obtain ⟨lc⟩ := c
  show String.mk ((la ++ lb) ++ lc) = String.mk (la ++ (lb ++ lc))
  rw [List.append_assoc]

lemma string_append_empty (s : String) : s ++ "" = s := by
  obtain ⟨l⟩ := s
  show String.mk (l ++ []) = String.mk l
  rw [List.append_nil]

lemma string_append_eq_empty {s t : String} : s ++ t = "" ↔ s = "" ∧ t = "" := by
  constructor
  · intro h
    obtain ⟨ls⟩ := s; obtain ⟨lt⟩ := t
    have h' : ls ++ lt = [] := congrArg String.data h
    rcases List.append_eq_nil.mp h' with ⟨h1, h2⟩
    subst h1; subst h2; exact ⟨rfl, rfl⟩
  · rintro ⟨rfl, rfl⟩; rfl

lemma get?_eq_getD (l : List String) (i : Nat) (h : i < l.length) :
    l.get? i = some (l.getD i "") := by
  induction l generalizing i with
  | nil => simp at h
  | cons a t ihl =>
    cases i with
    | zero => rfl
    | succ j => simpa using ihl j (by simpa using h)


lemma join_phrases_empty_left (b : String) : join_phrases "" b = b := by
  simp [join_phrases]

lemma join_phrases_empty_right (a : String) : join_phrases a "" = a := by
  unfold join_phrases
  split
  · next h => exact h.symm
  · simp [string_append_empty]

lemma join_phrases_ne_empty {a b : String} (hb : b ≠ "") : join_phrases a b ≠ "" := by
  unfold join_phrases
  split
  · exact hb
  · intro h
    exact hb (string_append_eq_empty.mp h).2

lemma chunk_phrase_ne_empty {m c : Nat} (h1 : 1 ≤ c) (h2 : c ≤ 999) :
    chunk_phrase m c ≠ "" := by
  unfold chunk_phrase
  intro h
  have hc := (hundreds_spec_all c (by omega)).2.mp (string_append_eq_empty.mp h).1
  omega

lemma join_phrases_assoc {a b c : String} (hb : b ≠ "") :
    join_phrases a (join_phrases b c) = join_phrases (join_phrases a b) c := by
  by_cases ha : a = ""
  · rw [ha, join_phrases_empty_left, join_phrases_empty_left]
  · by_cases hc : c = ""
    · rw [hc, join_phrases_empty_right, join_phrases_empty_right]
    · have hjbc : join_phrases b c = b ++ " " ++ c := by
        unfold join_phrases; rw [if_neg hb, if_pos hc]
      have hjab : join_phrases a b = a ++ " " ++ b := by
        unfold join_phrases; rw [if_neg ha, if_pos hb]
      have hbc_ne : b ++ " " ++ c ≠ "" := fun h => hc (string_append_eq_empty.mp h).2
      have hab_ne : a ++ " " ++ b ≠ "" := fun h => hb (string_append_eq_empty.mp h).2
      rw [hjbc, hjab]
      unfold join_phrases
      rw [if_neg ha, if_pos hbc_ne, if_neg hab_ne, if_pos hc]
      simp only [string_append_assoc]

/-- The code's integer-naming loop computes exactly the spec's rendering,
joined in front of the accumulated `result`, as long as the fuel covers
the iterations and the value is small enough for every needed magnitude
word to exist. -/
lemma integer_loop_eq :
    ∀ (fuel n m : Nat) (result : String), n ≤ fuel →
      n < 1000 ^ (MAGNITUDES.length + 1 - m) →
      integer_loop fuel n m result =
        some (join_phrases (integer_name_spec_fueled fuel n m) result) := by
  intro fuel
  induction fuel with
  | zero =>
    intro n m result hle hb
    have hn0 : n = 0 := Nat.le_zero.mp hle
    subst hn0
    simp [integer_loop, integer_name_spec_fueled, join_phrases_empty_left]
  | succ fuel ih =>
    intro n m result hle hb
    match n with
    | 0 => simp [integer_loop, integer_name_spec_fueled, join_phrases_empty_left]
    | k + 1 =>
      have hLm : m ≤ MAGNITUDES.length := by
        by_contra hcm
        have h0 : MAGNITUDES.length + 1 - m = 0 := by omega
        rw [h0, pow_zero] at hb
        omega
      have hdiv_le : (k + 1) / 1000 ≤ fuel := by
        have h2 : (k + 1) / 1000 < k + 1 := Nat.div_lt_self (by omega) (by omega)
        omega
      have hb' : k + 1 < 1000 ^ (MAGNITUDES.length - m) * 1000 := by
        have hLe : MAGNITUDES.length + 1 - m = (MAGNITUDES.length - m) + 1 := by omega
        rw [hLe, pow_succ] at hb
        exact hb
      have hdivb : (k + 1) / 1000 < 1000 ^ (MAGNITUDES.length + 1 - (m + 1)) := by
        have h3 : (k + 1) / 1000 < 1000 ^ (MAGNITUDES.length - m) :=
          (Nat.div_lt_iff_lt_mul (by omega)).mpr hb'
        have he : MAGNITUDES.length + 1 - (m + 1) = MAGNITUDES.length - m := by omega
        rw [he]
        exact h3
      have ihrec := fun r => ih ((k + 1) / 1000) (m + 1) r hdiv_le hdivb
      by_cases hm0 : (k + 1) % 1000 = 0
      · simp only [integer_loop, integer_name_spec_fueled, hm0, gt_iff_lt, Nat.lt_irrefl,
          if_false, Option.some_bind]
        exact ihrec result
      · have hrem1 : 1 ≤ (k + 1) % 1000 := by omega
        have hrem9 : (k + 1) % 1000 ≤ 999 := by
          have h4 : (k + 1) % 1000 < 1000 := Nat.mod_lt _ (by omega)
          omega
        have hch := (hundreds_spec_all ((k + 1) % 1000) (by omega)).1
        have hphr_ne : chunk_phrase m ((k + 1) % 1000) ≠ "" :=
          chunk_phrase_ne_empty hrem1 hrem9
        have hcode :
            (if m > 0 then
               (MAGNITUDES.get? (m - 1)).map
                 (fun mw => chunk_namer_spec ((k + 1) % 1000) ++ " " ++ mw)
             else some (chunk_namer_spec ((k + 1) % 1000))) =
              some (chunk_phrase m ((k + 1) % 1000)) := by
          by_cases hm : m > 0
          · rw [if_pos hm, get?_eq_getD MAGNITUDES (m - 1) (by omega)]
            unfold chunk_phrase
            rw [if_pos hm]
            simp only [Option.map_some', string_append_assoc]
          · rw [if_neg hm]
            unfold chunk_phrase
            rw [if_neg hm, string_append_empty]
        have hjoin :
            chunk_phrase m ((k + 1) % 1000) ++
                (if result ≠ "" then " " else "") ++ result =
              join_phrases (chunk_phrase m ((k + 1) % 1000)) result := by
          unfold join_phrases
          rw [if_neg hphr_ne]
        have hpos : (k + 1) % 1000 > 0 := by omega
        simp only [integer_loop, integer_name_spec_fueled, if_pos hpos, hch,
          Option.some_bind, hcode, Option.map_some']
        rw [hjoin, ihrec (join_phrases (chunk_phrase m ((k + 1) % 1000)) result),
          join_phrases_assoc hphr_ne]


lemma parse_big_int_eq_none (x : String) :
    parse_big_int x = none ↔ (parse_bytes_radix10 x).getD 0 = 0 := by
  unfold parse_big_int
  by_cases h : (parse_bytes_radix10 x).getD 0 = 0 <;> simp [h]

/-- C6: for 0 ≤ n ≤ 999 the Chunk Namer follows exactly the spec's
algorithm (hundreds digit with " hundred" and a space before a nonzero
remainder; the 1–19 word for a remainder below 20, else the tens-word
with a hyphenated ones-word when the ones digit is nonzero), returns the
empty string exactly when n = 0, and `to_english 255` is
"two hundred fifty-five". -/
theorem chunk_namer_follows_spec :
    (∀ n : Nat, n ≤ 999 →
      convert_hundreds_to_english (n : Int) = some (chunk_namer_spec n) ∧
      (chunk_namer_spec n = "" ↔ n = 0)) ∧
    to_english "255" = some "two hundred fifty-five" :=
  ⟨fun n h => hundreds_spec_all n (by omega), by decide⟩

theorem chunk_namer_follows_spec_witness :
    convert_hundreds_to_english ((255 : Nat) : Int) = some (chunk_namer_spec 255) ∧
    (chunk_namer_spec 255 = "" ↔ 255 = 0) :=
  chunk_namer_follows_spec.1 255 (by decide)

/-- C10: under the callers' precondition 1 ≤ n ≤ 999 the Chunk Namer is
total: the BigInt-to-u64 conversion succeeds and the whole conversion
(including every table access) returns a value, i.e. never panics. -/
theorem chunk_namer_total_on_valid_range (n : Int) (h1 : 1 ≤ n) (h2 : n ≤ 999) :
    (bigint_to_u64 n).isSome = true ∧ (convert_hundreds_to_english n).isSome = true := by
  have hnn : n = ((n.toNat : Nat) : Int) := (Int.toNat_of_nonneg (by omega)).symm
  refine ⟨?_, ?_⟩
  · unfold bigint_to_u64
    have hub : n ≤ (2 ^ 64 - 1 : Int) := by
      have h64 : (999 : Int) ≤ 2 ^ 64 - 1 := by norm_num
      omega
    rw [if_pos ⟨by omega, hub⟩]
    rfl
  · rw [hnn, (hundreds_spec_all n.toNat (by omega)).1]
    rfl

theorem chunk_namer_total_on_valid_range_witness :
    (bigint_to_u64 999).isSome = true ∧ (convert_hundreds_to_english 999).isSome = true :=
  chunk_namer_total_on_valid_range 999 (by decide) (by decide)

/-- C4 counterexample: the claim includes n = 0, but `to_english 0` is
"zero" while no word is stored at ones-table index 0 − 1 = −1, so the
claim fails at n = 0. -/
theorem ones_table_claim_counterexample :
    ¬ (∀ n : Nat, n < 20 →
        ∃ w, table_get_int ONE_TO_NINETEEN ((n : Int) - 1) = some w ∧
          to_english (toString n) = some w) := by
  intro h
  obtain ⟨w, hw, -⟩ := h 0 (by decide)
  have hnone : table_get_int ONE_TO_NINETEEN (((0 : Nat) : Int) - 1) = none := by decide
  rw [hnone] at hw
  exact Option.noConfusion hw

/-- C4 amended: for every integer n with 1 ≤ n < 20, `to_english n`
equals the ones-table word at index n − 1. -/
theorem ones_table_amended (n : Nat) (h1 : 1 ≤ n) (h2 : n < 20) :
    to_english (toString n) = ONE_TO_NINETEEN.get? (n - 1) := by
  interval_cases n <;> decide

theorem ones_table_amended_witness :
    to_english (toString 19) = ONE_TO_NINETEEN.get? (19 - 1) :=
  ones_table_amended 19 (by decide) (by decide)

/-- C5: whenever the canonical string contains the exponent marker 'e',
`to_english` fails (panics) before any conversion work and produces no
result string at all. -/
theorem scientific_notation_is_fatal (s : String) (h : rust_contains s 'e' = true) :
    to_english s = none := by
  simp [to_english, h]

theorem scientific_notation_is_fatal_witness : to_english "1e10" = none :=
  scientific_notation_is_fatal "1e10" (by decide)

/-- C3: `to_english` maps "0", "-0" and "-0.0" to "zero"; the sign
marker is never attached to a zero-magnitude value, and whenever neither
the integer nor the fractional part contributes text the result is
exactly "zero". -/
theorem zero_is_zero :
    to_english "0" = some "zero" ∧ to_english "-0" = some "zero" ∧
    to_english "-0.0" = some "zero" ∧
    (∀ s : String, (split_number s).integer = none → (split_number s).decimal = none →
      convert_number_to_english s = some "zero") := by
  refine ⟨by decide, by decide, by decide, ?_⟩
  intro s h1 h2
  simp [convert_number_to_english, h1, h2]

theorem zero_is_zero_witness : convert_number_to_english "." = some "zero" :=
  zero_is_zero.2.2.2 "." (by decide) (by decide)

/-- C2: when the integer part parses to value zero it is stored as
absent, so for an input like "-0.5" the minus sign (which sits on the
integer substring) is silently dropped and only the fraction phrase is
returned, with no "negative" marker. -/
theorem minus_zero_integer_drops_sign :
    to_english "-0.5" = some "five tenths" ∧
    (∀ (s : String) (d : Int) (t : String),
      (split_number s).integer = none → (split_number s).decimal = some d →
      convert_decimal_to_english d (split_number s).decimal_places = some t →
      t ≠ "" → convert_number_to_english s = some t) := by
  refine ⟨by decide, ?_⟩
  intro s d t h1 h2 h3 h4
  simp only [convert_number_to_english, h1, h2, h3, Option.isSome_none, Option.some_bind,
    Option.map_some', Bool.false_eq_true, if_false]
  rw [show ("" ++ ("" ++ t) : String) = t from rfl, if_neg h4]

theorem minus_zero_integer_drops_sign_witness :
    convert_number_to_english "-0.5" = some "five tenths" :=
  minus_zero_integer_drops_sign.2 "-0.5" 5 "five tenths"
    (by decide) (by decide) (by decide) (by decide)

/-- C8: the Splitter stores a zero-valued integer part as absent, a
zero-valued fractional part as absent, and sets `decimal_places` to the
literal length of the fractional substring when a '.' is present
("0.05" gives 2, "0.5" gives 1) and to 0 otherwise. -/
theorem splitter_invariants :
    ((split_number "0.05").decimal_places = 2 ∧ (split_number "0.5").decimal_places = 1) ∧
    (∀ s : String,
      ((split_number s).integer = none ↔
        (parse_bytes_radix10 ((rust_split '.' s).getD 0 "")).getD 0 = 0) ∧
      ((rust_split '.' s).length > 1 →
        ((split_number s).decimal = none ↔
          (parse_bytes_radix10 ((rust_split '.' s).getD 1 "")).getD 0 = 0)) ∧
      (¬ (rust_split '.' s).length > 1 → (split_number s).decimal = none) ∧
      (split_number s).decimal_places =
        (if (rust_split '.' s).length > 1 then ((rust_split '.' s).getD 1 "").length else 0)) := by
  refine ⟨⟨by decide, by decide⟩, ?_⟩
  intro s
  have hsdec : (split_number s).decimal =
      (if (rust_split '.' s).length > 1
       then parse_big_int ((rust_split '.' s).getD 1 "") else none) := rfl
  refine ⟨parse_big_int_eq_none _, fun h => ?_, fun h => ?_, rfl⟩
  · rw [hsdec, if_pos h]
    exact parse_big_int_eq_none _
  · rw [hsdec, if_neg h]

theorem splitter_invariants_witness : (split_number "5").decimal = none :=
  (splitter_invariants.2 "5").2.2.1 (by decide)

/-- C9: the Fraction Namer's place-value suffix gets a final "s" exactly
when the numerator's value exceeds 1 (singular at 1);
`to_english 6.000052` = "six and fifty-two millionths" and
`to_english 52.000001` = "fifty-two and one millionth". -/
theorem fraction_suffix_plural :
    (to_english "6.000052" = some "six and fifty-two millionths" ∧
     to_english "52.000001" = some "fifty-two and one millionth") ∧
    (∀ (n : Int) (dp : Nat) (w s : String), dp ≠ 0 →
      DECIMALS.get? (dp - 1) = some w →
      convert_decimal_to_english n dp = some s →
      ∃ body, s = body ++ " " ++ (if n > 1 then w ++ "s" else w)) := by
  refine ⟨⟨by decide, by decide⟩, ?_⟩
  intro n dp w s hdp hw hs
  unfold convert_decimal_to_english at hs
  rw [if_neg hdp, hw] at hs
  simp only [Option.some_bind] at hs
  cases hloop : decimal_loop 3 n.toNat 0 "" with
  | none => rw [hloop] at hs; simp at hs
  | some body =>
    rw [hloop] at hs
    simp only [Option.map_some'] at hs
    exact ⟨body, (Option.some.inj hs).symm⟩

theorem fraction_suffix_plural_witness :
    ∃ body, "one millionth" =
      body ++ " " ++ (if (1 : Int) > 1 then "millionth" ++ "s" else "millionth") :=
  fraction_suffix_plural.2 1 6 "millionth" "one millionth"
    (by decide) (by decide) (by decide)

/-- C7: the Integer Namer renders base-1000 chunks least significant
first, skips zero chunks, attaches the magnitude word at table index
magnitude − 1, and prepends so the most significant chunk renders first
(shown by agreement with the spec's renderer `integer_name_spec` on the
whole supported range); a negative integer part is rendered with a
"negative " marker; and `to_english` maps −123456, 1000000 and
1000000000 to their expected names. -/
theorem integer_namer_correct :
    (to_english "-123456" =
       some "negative one hundred twenty-three thousand four hundred fifty-six" ∧
     to_english "1000000" = some "one million" ∧
     to_english "1000000000" = some "one billion") ∧
    (∀ n : Nat, n < 1000 ^ (MAGNITUDES.length + 1) →
      convert_integer_to_english (n : Int) = some (integer_name_spec n)) ∧
    (∀ (s : String) (v : Int) (t : String),
      (split_number s).integer = some v → v < 0 → (split_number s).decimal = none →
      convert_integer_to_english (-v) = some t →
      convert_number_to_english s = some ("negative " ++ t)) := by
  refine ⟨⟨by decide, by decide, by decide⟩, ?_, ?_⟩
  · intro n hn
    unfold convert_integer_to_english integer_name_spec
    rw [show ((n : Int)).toNat = n from rfl,
      integer_loop_eq n n 0 "" le_rfl (by simpa using hn), join_phrases_empty_right]
  · intro s v t h1 hneg h2 h3
    have hne : ("negative " ++ t) ≠ "" := fun h =>
      absurd (string_append_eq_empty.mp h).1 (by decide)
    simp only [convert_number_to_english, h1, h2, if_pos hneg, h3, Option.map_some',
      Option.some_bind, string_append_empty]
    rw [if_neg hne]

theorem integer_namer_correct_witness :
    convert_integer_to_english ((123456 : Nat) : Int) = some (integer_name_spec 123456) :=
  integer_namer_correct.2.1 123456 (by decide)

/-- C1 (code bug): at the failing input 0.1234567 (fraction numerator
1234567, 7 decimal places) the code attaches `MAGNITUDES[m]` instead of
the spec's `MAGNITUDES[m − 1]`, so the second chunk gets "million" and
the third "billion" instead of "thousand" and "million"; the Integer
Namer's own placement, which the claim says is mirrored, yields the
expected chunk names. -/
theorem fraction_magnitude_off_by_one :
    to_english "0.1234567" =
      some "one billion two hundred thirty-four million five hundred sixty-seven ten-millionths" ∧
    convert_decimal_to_english 1234567 7 =
      some "one billion two hundred thirty-four million five hundred sixty-seven ten-millionths" ∧
    integer_name_spec 1234567 =
      "one million two hundred thirty-four thousand five hundred sixty-seven" :=
  ⟨by decide, by decide, by decide⟩
